import Mathlib

/-!
# Verification of the `readahead` package (klauspost/readahead)

This file gives a shallow embedding of `reader.go` and proves the frozen
claims about it.

Modelling choices, stated once:

* Bytes are `Nat`; byte slices are `List Nat`.
* An upstream `io.Reader` is modelled by a source-state type `σ` together
  with a step function `σ → SrcEv × σ`: each call of the background fetch
  loop on `rd.Read` consumes one step.  A step result is either an ordinary
  read result `SrcEv.ok data err` (the `data` returned plus the error value
  returned alongside it, as Go readers may return both) or an abnormal
  termination `SrcEv.ab msg` of the `Read` call itself (a Go panic), which
  `buffer.read` contains via `recover`.
* The background goroutine of `reader.init` communicates with the consumer
  through the FIFO channels `reuse` and `ready`.  Channels are FIFO and the
  fetch loop is sequential, so the consumer-visible behaviour is captured by
  a deterministic state: explicit `reuse` and `ready` queues, a `closedR`
  flag (the `ready` channel has been closed, i.e. the goroutine exited), and
  the merged rule that `fill`, when it would block on an empty open `ready`
  channel, performs the goroutine's next iteration (`fetchOne`) itself.
  Prefetching by the goroutine ahead of consumer demand is modelled by the
  explicit transition `prefetch` (the same `fetchOne`), which a schedule may
  interleave; it is consumer-invisible for pure read traces but matters
  after `Close`/`Seek`, where it is applied explicitly.
* A source whose scripted events are exhausted is treated as returning
  `(0, io.EOF)` forever (a finite script describes a finite stream).
* `WriteTo`'s loop is unbounded in Go (a sink that accepts partially while
  reporting no error loops forever); it is modelled with explicit fuel and
  an `Option` result, `none` meaning the loop did not finish within fuel.
-/

/-- Error values, as compared by the Go code (`io.EOF` is compared by
identity; other errors are opaque values). `readAfterClose` is the
`errors.New("readahead: read after Close")` value. -/
inductive Err where
  | eof
  | readAfterClose
  | other (msg : String)
deriving DecidableEq, Repr

/-- One result of calling `Read` on the upstream source: either a normal
return of some bytes plus an error value, or an abnormal termination
(panic) of the call itself. -/
inductive SrcEv where
  | ok (data : List Nat) (err : Option Err)
  | ab (msg : String)
deriving DecidableEq, Repr

namespace SrcEv

def isAb : SrcEv → Bool
  | .ok _ _ => false
  | .ab _ => true

end SrcEv

/-- The `buffer` struct of reader.go: one read's worth of data, a cursor,
and the error returned by the read that filled it.  `buf` is the slice
after the truncation `b.buf = b.buf[0:n]`, so `size` is kept separately. -/
structure Buffer where
  err : Option Err
  buf : List Nat
  offset : Nat
  size : Nat
deriving DecidableEq, Repr

/-- Model of `newBuffer(size)`: a fresh zeroed buffer (`make([]byte, size)`). -/
def newBuffer (size : Nat) : Buffer :=
  { err := none, buf := List.replicate size 0, offset := 0, size := size }

namespace Buffer

/-- Model of `(*buffer).isEmpty` with its nil-receiver convention: a nil buffer is
empty, otherwise empty iff `len(b.buf) - b.offset <= 0`. -/
def isEmpty : Option Buffer → Bool
  | none => true
  | some b => b.buf.length ≤ b.offset

/-- Model of `(*buffer).buffer()`: the unread slice `b.buf[b.offset:]`. -/
def buffer (b : Buffer) : List Nat := b.buf.drop b.offset

/-- Model of `(*buffer).inc(n)`: advance the cursor. -/
def inc (b : Buffer) (n : Nat) : Buffer := { b with offset := b.offset + n }

/-- Model of `(*buffer).read(rd)`: fill from the source.  On a normal read the data
replaces the buffer content (the truncation to `n` bytes), the offset is
reset and the read's error is stored.  On an abnormal termination the
deferred `recover` stores and returns the converted error; the assignments
to `b.buf` and `b.offset` never execute, so they keep their previous
values. -/
def read (b : Buffer) (ev : SrcEv) : Buffer :=
  match ev with
  | .ok data e => { b with buf := data, offset := 0, err := e }
  | .ab msg => { b with err := some (.other ("panic reading: " ++ msg)) }

end Buffer

/-- The `reader` struct plus the channel state it owns.  `closer = some r`
models a non-nil `a.closer` whose `Close()` returns `r`; `closerCalls` is
instrumentation counting invocations of the underlying closer (not a field
of the Go struct). -/
structure Reader (σ : Type) where
  src : σ
  reuse : List Buffer
  ready : List Buffer
  closedR : Bool
  cur : Option Buffer
  err : Option Err
  closer : Option (Option Err)
  closerCalls : Nat
  size : Nat
  buffers : Nat
deriving DecidableEq, Repr

namespace Reader

variable {σ : Type}

/-- One iteration of the fetch goroutine of `(*reader).init`: take a buffer
from `reuse`, `read` into it from the source, publish it on `ready`; if the
read returned an error the goroutine returns, closing `ready`.  A no-op if
`reuse` is empty (the goroutine is blocked). -/
def fetchOne (step : σ → SrcEv × σ) (a : Reader σ) : Reader σ :=
  match a.reuse with
  | [] => a
  | rb :: rs =>
    let (ev, s') := step a.src
    let b := rb.read ev
    { a with src := s', reuse := rs, ready := a.ready ++ [b],
             closedR := a.closedR || b.err.isSome }

/-- The goroutine prefetching one chunk ahead of consumer demand. -/
def prefetch (step : σ → SrcEv × σ) (a : Reader σ) : Reader σ :=
  if a.closedR then a else fetchOne step a

/-- Model of `(*reader).fill`: if the current buffer is empty, return it to `reuse`
and take the next from `ready`; a closed, drained `ready` channel
synthesizes the read-after-Close error if none is latched.  Taking from an
open empty `ready` blocks until the goroutine publishes: merged here as
running `fetchOne` in place. -/
def fill (step : σ → SrcEv × σ) (a : Reader σ) : Option Err × Reader σ :=
  if Buffer.isEmpty a.cur then
    let a1 :=
      match a.cur with
      | some c => { a with reuse := a.reuse ++ [c], cur := none }
      | none => a
    let a2 := if a1.ready.isEmpty && !a1.closedR then fetchOne step a1 else a1
    match a2.ready with
    | b :: rest => (none, { a2 with ready := rest, cur := some b })
    | [] =>
      match a2.err with
      | some e => (some e, a2)
      | none => (some Err.readAfterClose, { a2 with err := some Err.readAfterClose })
  else (none, a)

/-- Model of `(*reader).Read`: latched-error check, `fill`, copy
`min(len(p), len(cur.buffer()))` bytes, advance, and latch the buffer's
error once the buffer is drained. -/
def Read (step : σ → SrcEv × σ) (a : Reader σ) (plen : Nat) :
    List Nat × Option Err × Reader σ :=
  match a.err with
  | some e => ([], some e, a)
  | none =>
    match fill step a with
    | (some e, a1) => ([], some e, a1)
    | (none, a1) =>
      match a1.cur with
      | none => ([], none, a1)
      | some c =>
        let out := c.buffer.take plen
        let c2 := c.inc out.length
        let a2 := { a1 with cur := some c2 }
        if Buffer.isEmpty (some c2) then
          (out, c2.err, { a2 with err := c2.err })
        else
          (out, none, a2)

/-- A sequence of consumer `Read` calls with the given caller-buffer sizes;
collects all delivered bytes. -/
def runReads (step : σ → SrcEv × σ) : Reader σ → List Nat → List Nat × Reader σ
  | a, [] => ([], a)
  | a, plen :: rest =>
    ((Read step a plen).1 ++ (runReads step (Read step a plen).2.2 rest).1,
     (runReads step (Read step a plen).2.2 rest).2)

/-- The loop body of `(*reader).WriteTo`, with fuel.  The sink models
`w.Write`: given the unread slice it returns how many bytes it accepted and
an error.  A `none` result means the loop did not terminate within fuel. -/
def writeToLoop (step : σ → SrcEv × σ) (sink : List Nat → Nat × Option Err) :
    Nat → Reader σ → Nat → Option (Nat × Option Err × Reader σ)
  | 0, _, _ => none
  | fuel + 1, a, n =>
    match fill step a with
    | (some e, a1) => some (n, some e, a1)
    | (none, a1) =>
      match a1.cur with
      | none => none
      | some c =>
        let (n2, werr) := sink c.buffer
        let c2 := c.inc n2
        let a2 := { a1 with cur := some c2 }
        let n' := n + n2
        match werr with
        | some we => some (n', some we, a2)
        | none =>
          match c2.err with
          | some e =>
            if e = Err.eof then some (n', none, { a2 with err := some e })
            else some (n', some e, { a2 with err := some e })
          | none => writeToLoop step sink fuel a2 n'

/-- Model of `(*reader).WriteTo`: latched-error check then the drain loop. -/
def WriteTo (step : σ → SrcEv × σ) (a : Reader σ)
    (sink : List Nat → Nat × Option Err) (fuel : Nat) :
    Option (Nat × Option Err × Reader σ) :=
  match a.err with
  | some e => some (0, some e, a)
  | none => writeToLoop step sink fuel a 0

/-- Model of `(*reader).Close`: quiesce the goroutine (after which `ready` is
closed); on the first call with a closer present, consume the closer and
return its result; otherwise latch the read-after-Close error and return
nil. -/
def Close (a : Reader σ) : Option Err × Reader σ :=
  let a1 := { a with closedR := true }
  match a1.closer with
  | some r => (r, { a1 with closer := none, closerCalls := a1.closerCalls + 1 })
  | none => (none, { a1 with err := some Err.readAfterClose })

/-- Iterated `Close` calls (states only). -/
def closeIter : Nat → Reader σ → Reader σ
  | 0, a => a
  | n + 1, a => closeIter n (Close a).2

/-- Model of `(*reader).init` run on an existing struct: fresh channels and buffers,
current buffer and latched error cleared; the closer is untouched. -/
def initState (a : Reader σ) (src : σ) (buffers size : Nat) : Reader σ :=
  { a with src := src, reuse := List.replicate buffers (newBuffer size),
           ready := [], closedR := false, cur := none, err := none,
           size := size, buffers := buffers }

end Reader

/-- A fresh reader as built by `NewReaderSize`/`NewReadCloserSize`
(validation of positive `buffers`/`size` aside): a zero `reader` struct,
the optional closer stored, then `init`. -/
def mkReader {σ : Type} (src : σ) (buffers size : Nat)
    (closer : Option (Option Err)) : Reader σ :=
  { src := src, reuse := List.replicate buffers (newBuffer size),
    ready := [], closedR := false, cur := none, err := none,
    closer := closer, closerCalls := 0, size := size, buffers := buffers }

/-! ## Concrete source models -/

/-- Source model A: a finite script of read results, exhausted script
meaning `(0, io.EOF)` forever. -/
def stepL : List SrcEv → SrcEv × List SrcEv
  | [] => (.ok [] (some .eof), [])
  | ev :: rest => (ev, rest)

/-- The byte sequence a scripted source produces: everything up to and
including the first read that carries an error (the fetch loop stops
there; later script entries are never requested). -/
def srcBytesL : List SrcEv → List Nat
  | [] => []
  | .ok d none :: rest => d ++ srcBytesL rest
  | .ok d (some _) :: _ => d
  | .ab _ :: _ => []

/-! ## Seekable source model

Source model B: a repositionable byte stream (`io.ReadSeeker`), holding its
content and an absolute position.  Each read returns up to `size` bytes
from the position (and `(0, io.EOF)` at the end); `failSeek` models an
underlying seeker whose `Seek` fails. -/

structure SeekSrc where
  content : List Nat
  pos : Nat
  failSeek : Bool
deriving DecidableEq, Repr

/-- Whence values `io.SeekStart` / `io.SeekCurrent` (`io.SeekEnd` is not exercised by the
claims). -/
inductive Whence where
  | start
  | current
deriving DecidableEq, Repr

/-- One upstream `Read` of the positional source. -/
def seekStep (size : Nat) (s : SeekSrc) : SrcEv × SeekSrc :=
  let rem := s.content.drop s.pos
  if rem.isEmpty then (.ok [] (some .eof), s)
  else (.ok (rem.take size) none, { s with pos := s.pos + min size rem.length })

/-- The bytes still to be produced by the positional source. -/
def srcBytesP (s : SeekSrc) : List Nat := s.content.drop s.pos

/-- The underlying seeker's `Seek(offset, whence)`: new absolute position,
or an error (leaving the position alone).  A negative resolved position is
an error, as for Go's standard seekers. -/
def srcSeek (s : SeekSrc) (offset : Int) (whence : Whence) :
    Int × Option Err × SeekSrc :=
  if s.failSeek then (0, some (.other "seek error"), s)
  else
    match whence with
    | .start =>
      if offset < 0 then (0, some (.other "negative position"), s)
      else (offset, none, { s with pos := offset.toNat })
    | .current =>
      let np := (s.pos : Int) + offset
      if np < 0 then (0, some (.other "negative position"), s)
      else (np, none, { s with pos := np.toNat })

namespace Reader

/-- The `io.SeekCurrent` adjustment loop of `(*seekable).Seek`: while the
current buffer is non-nil, `fill`; on success subtract the unread length
from the offset and mark the buffer fully consumed.  Runs with fuel; the
loop is entered only after quiescing (`closedR`), where
`ready.length + 3` fuel always reaches the `cur = nil` exit (proved
below). -/
def seekLoop (step : SeekSrc → SrcEv × SeekSrc) :
    Nat → Reader SeekSrc → Int → Int × Reader SeekSrc
  | 0, a, offset => (offset, a)
  | fuel + 1, a, offset =>
    match a.cur with
    | none => (offset, a)
    | some _ =>
      match fill step a with
      | (some _, a1) => seekLoop step fuel a1 offset
      | (none, a1) =>
        match a1.cur with
        | none => seekLoop step fuel a1 offset
        | some c =>
          let offset1 := offset - (c.buffer.length : Int)
          let a2 := { a1 with cur := some { c with offset := c.buf.length } }
          seekLoop step fuel a2 offset1

/-- Model of `(*seekable).Seek`: quiesce the goroutine (closing `ready`), for
`io.SeekCurrent` run the adjustment loop, seek the underlying seeker, and
on success reinitialize the pipeline at the new position. -/
def Seek (a : Reader SeekSrc) (offset : Int) (whence : Whence) :
    Int × Option Err × Reader SeekSrc :=
  let a1 : Reader SeekSrc := { a with closedR := true }
  let p :=
    if whence = Whence.current then
      seekLoop (seekStep a1.size) (a1.ready.length + 3) a1 offset
    else (offset, a1)
  match srcSeek p.2.src p.1 whence with
  | (res, some e, _) => (res, some e, p.2)
  | (res, none, s') => (res, none, (p.2).initState s' p.2.buffers p.2.size)

/-- Buffered-but-unconsumed bytes: the unread part of the current chunk
plus everything pending in the ready queue. -/
def bufferedBytes (a : Reader SeekSrc) : Nat :=
  (match a.cur with
   | some c => c.buffer.length
   | none => 0) + (a.ready.map (fun b => b.buffer.length)).sum

end Reader

/-! ## ReaderAt source model

`NewReaderAt` wraps an `io.ReaderAt` in the `readerat` struct, whose `Read`
is `a.ReaderAt.ReadAt(p, 0)`.  The wrapped `ReaderAt` is modelled by its
content; per the `io.ReaderAt` contract, `ReadAt(p, off)` returns the bytes
at `[off, off+len(p))` and a non-nil error (EOF here) when fewer than
`len(p)` bytes are available.  The `readerat` struct holds no position, so
its source state is `Unit`. -/

/-- A well-behaved scripted source: no abnormal terminations (panicking
sources are treated separately; they do not "produce a byte sequence"). -/
def goodL (evs : List SrcEv) : Prop := ∀ ev ∈ evs, ev.isAb = false

/-- The positional source model is always well-behaved. -/
def goodP : SeekSrc → Prop := fun _ => True

/-- Model of `ReadAt(p, off)` of the wrapped `io.ReaderAt`. -/
def readAt (content : List Nat) (plen off : Nat) : List Nat × Option Err :=
  let d := (content.drop off).take plen
  (d, if d.length < plen then some .eof else none)

/-- Model of `(*readerat).Read(p)`: always `ReadAt(p, 0)`. -/
def readeratRead (content : List Nat) (plen : Nat) : List Nat × Option Err :=
  readAt content plen 0

/-- The source step a `NewReaderAt` stream gives the fetch loop: stateless,
every pull reads at offset 0 with the chunk size. -/
def readeratStep (content : List Nat) (size : Nat) : Unit → SrcEv × Unit :=
  fun _ =>
    let (d, e) := readeratRead content size
    (.ok d e, ())

/-! ## Accounting invariant

The generic fidelity argument: relative to a function `srcB` giving the
bytes a source state will still produce, `remBytes` is what the consumer is
still owed, and each `Read` moves bytes from `remBytes` to its output
without loss, duplication or reordering. -/

namespace Reader

variable {σ : Type}

/-- Bytes still owed to the consumer: the unread part of the current chunk,
the ready queue's unread contents, and (unless the fetch loop has stopped)
whatever the source will still produce; nothing once an error is latched. -/
def remBytes (srcB : σ → List Nat) (a : Reader σ) : List Nat :=
  if a.err.isSome then []
  else
    (match a.cur with
     | some c => c.buffer
     | none => []) ++
    (a.ready.map Buffer.buffer).flatten ++
    (if a.closedR then [] else srcB a.src)

/-- The source-model contract at one state: a normal read hands out exactly
the front of the remaining bytes (all of them if it also carries an error,
since the fetch loop then stops), and the source never terminates
abnormally. -/
def SpecAt (step : σ → SrcEv × σ) (srcB : σ → List Nat) (good : σ → Prop)
    (s : σ) : Prop :=
  (∀ d s', step s = (.ok d none, s') → srcB s = d ++ srcB s' ∧ good s') ∧
  (∀ d e s', step s = (.ok d (some e), s') → srcB s = d) ∧
  (∀ m s', step s ≠ (.ab m, s'))

/-- State invariant along pure consumer-read traces. -/
structure Inv (a : Reader σ) : Prop where
  ready_nil : a.ready = []
  bpos : 1 ≤ a.buffers
  count : a.reuse.length + (if a.cur.isSome then 1 else 0) = a.buffers
  closed_cur : a.closedR = true →
    a.err.isSome ∨ ∃ c, a.cur = some c ∧ c.err.isSome ∧ c.offset < c.buf.length
  cur_closed : ∀ c, a.cur = some c → c.err.isSome → a.closedR = true

theorem inv_mk {σ : Type} (src : σ) (buffers size : Nat)
    (closer : Option (Option Err)) (hb : 1 ≤ buffers) :
    Inv (mkReader src buffers size closer) := by
  refine ⟨rfl, hb, ?_, ?_, ?_⟩ <;> simp [mkReader]

end Reader

theorem Buffer.isEmpty_some {c : Buffer} :
    Buffer.isEmpty (some c) = true ↔ c.buf.length ≤ c.offset := by
  simp [Buffer.isEmpty]

theorem Buffer.buffer_eq_nil {c : Buffer} (h : c.buf.length ≤ c.offset) :
    c.buffer = [] :=
  List.drop_eq_nil_of_le h

theorem Buffer.buffer_inc (c : Buffer) (n : Nat) :
    (c.inc n).buffer = c.buffer.drop n := by
  simp only [Buffer.inc, Buffer.buffer, List.drop_drop]

namespace Reader

variable {σ : Type}

theorem fill_spec (step : σ → SrcEv × σ) (srcB : σ → List Nat) (good : σ → Prop)
    (hspec : ∀ s, good s → SpecAt step srcB good s)
    (a : Reader σ) (hInv : Inv a) (hgood : a.closedR = false → good a.src)
    (he : a.err = none) :
    ∃ c a1, fill step a = (none, a1) ∧ a1.cur = some c ∧ a1.err = none ∧
      a1.ready = [] ∧ a1.buffers = a.buffers ∧ a1.size = a.size ∧
      a1.reuse.length + 1 = a1.buffers ∧
      (a1.closedR = false → good a1.src) ∧
      c.err.isSome = a1.closedR ∧
      c.buffer ++ (if a1.closedR then [] else srcB a1.src) = remBytes srcB a := by
  by_cases hcur : Buffer.isEmpty a.cur
  · -- current buffer empty or absent: swap in the next one
    have hclosed : a.closedR = false := by
      cases hcl : a.closedR with
      | false => rfl
      | true =>
        rcases hInv.closed_cur hcl with h | ⟨c, hc, _, hlt⟩
        · rw [he] at h; simp at h
        · rw [hc, Buffer.isEmpty_some] at hcur; omega
    have hcount := hInv.count
    have hbpos := hInv.bpos
    obtain ⟨src, reuse, ready, closedR, cur, err, closer, calls, size, buffers⟩ := a
    obtain rfl : ready = [] := hInv.ready_nil
    simp only at hclosed he hcur hgood hcount hbpos ⊢
    subst hclosed he
    have hg : good src := hgood rfl
    rcases hstep : step src with ⟨ev, s'⟩
    cases cur with
    | none =>
      simp only [Option.isSome_none, if_neg Bool.false_ne_true, Nat.add_zero] at hcount
      obtain ⟨rb, rs, rfl⟩ : ∃ rb rs, reuse = rb :: rs := by
        cases reuse with
        | nil => simp at hcount; omega
        | cons rb rs => exact ⟨rb, rs, rfl⟩
      cases ev with
      | ok d e =>
        refine ⟨⟨e, d, 0, rb.size⟩,
          ⟨s', rs, [], e.isSome, some ⟨e, d, 0, rb.size⟩, none, closer, calls,
           size, buffers⟩,
          by simp [fill, fetchOne, hstep, Buffer.isEmpty, Buffer.read],
          rfl, rfl, rfl, rfl, rfl, ?_, ?_, ?_, ?_⟩
        · show rs.length + 1 = buffers
          simp at hcount; omega
        · cases e with
          | none => exact fun _ => ((hspec src hg).1 d s' hstep).2
          | some e0 => simp
        · rfl
        · cases e with
          | none =>
            have h1 := ((hspec src hg).1 d s' hstep).1
            simp [Buffer.buffer, remBytes, h1]
          | some e0 =>
            have h2 := (hspec src hg).2.1 d e0 s' hstep
            simp [Buffer.buffer, remBytes, h2]
      | ab m => exact absurd hstep ((hspec src hg).2.2 m s')
    | some c0 =>
      simp only [Option.isSome_some, if_pos trivial] at hcount
      obtain ⟨rb, rs, hl⟩ : ∃ rb rs, reuse ++ [c0] = rb :: rs := by
        cases reuse with
        | nil => exact ⟨c0, [], rfl⟩
        | cons r rr => exact ⟨r, rr ++ [c0], rfl⟩
      have hlen : rs.length = reuse.length := by
        have := congrArg List.length hl
        simp at this; omega
      have hc0 : c0.buffer = [] :=
        Buffer.buffer_eq_nil (Buffer.isEmpty_some.mp hcur)
      cases ev with
      | ok d e =>
        refine ⟨⟨e, d, 0, rb.size⟩,
          ⟨s', rs, [], e.isSome, some ⟨e, d, 0, rb.size⟩, none, closer, calls,
           size, buffers⟩,
          by simp [fill, hcur, fetchOne, hstep, Buffer.read, hl],
          rfl, rfl, rfl, rfl, rfl, ?_, ?_, ?_, ?_⟩
        · show rs.length + 1 = buffers
          omega
        · cases e with
          | none => exact fun _ => ((hspec src hg).1 d s' hstep).2
          | some e0 => simp
        · rfl
        · cases e with
          | none =>
            have h1 := ((hspec src hg).1 d s' hstep).1
            simp [Buffer.buffer, remBytes, h1, hc0, Buffer.isEmpty_some.mp hcur]
          | some e0 =>
            have h2 := (hspec src hg).2.1 d e0 s' hstep
            simp [Buffer.buffer, remBytes, h2, hc0, Buffer.isEmpty_some.mp hcur]
      | ab m => exact absurd hstep ((hspec src hg).2.2 m s')
  · -- current buffer still has data: fill is a no-op
    cases hc : a.cur with
    | none => rw [hc] at hcur; simp [Buffer.isEmpty] at hcur
    | some c =>
      have hfill : fill step a = (none, a) := by
        simp [fill, hcur]
      have hcount : a.reuse.length + 1 = a.buffers := by
        have := hInv.count
        rw [hc] at this; simp at this; omega
      have hiff : c.err.isSome = a.closedR := by
        cases hce : c.err with
        | some e => simp [hInv.cur_closed c hc (by simp [hce])]
        | none =>
          cases hcl : a.closedR with
          | false => simp
          | true =>
            rcases hInv.closed_cur hcl with h | ⟨c', hc', hce', _⟩
            · rw [he] at h; simp at h
            · rw [hc] at hc'; cases hc'
              simp [hce] at hce'
      refine ⟨c, a, hfill, hc, he, hInv.ready_nil, rfl, rfl, hcount, hgood, hiff, ?_⟩
      rw [remBytes, hInv.ready_nil, hc, he]
      simp

end Reader

theorem take_append_drop_take (l : List Nat) (n : Nat) :
    l.take n ++ l.drop (l.take n).length = l := by
  rw [List.length_take]
  rcases le_total n l.length with h | h
  · rw [min_eq_left h, List.take_append_drop]
  · rw [min_eq_right h, List.drop_length, List.take_of_length_le h,
      List.append_nil]

theorem take_eq_self_of_len_le (l : List Nat) (n : Nat)
    (h : l.length ≤ (l.take n).length) : l.take n = l := by
  rw [List.length_take] at h
  exact List.take_of_length_le (by omega)

namespace Reader

variable {σ : Type}

theorem Buffer.inc_err (b : Buffer) (n : Nat) : (b.inc n).err = b.err := rfl

theorem remBytes_latch (srcB : σ → List Nat) (a1 : Reader σ) (c2 : Buffer)
    (hready1 : a1.ready = []) :
    remBytes srcB { a1 with cur := some c2, err := c2.err } =
      if c2.err.isSome then []
      else c2.buffer ++ (if a1.closedR then [] else srcB a1.src) := by
  cases hce : c2.err <;> simp [remBytes, hce, hready1]

theorem remBytes_nolatch (srcB : σ → List Nat) (a1 : Reader σ) (c2 : Buffer)
    (herr1 : a1.err = none) (hready1 : a1.ready = []) :
    remBytes srcB { a1 with cur := some c2 } =
      c2.buffer ++ (if a1.closedR then [] else srcB a1.src) := by
  simp [remBytes, herr1, hready1]

theorem read_preserves (step : σ → SrcEv × σ) (srcB : σ → List Nat)
    (good : σ → Prop) (hspec : ∀ s, good s → SpecAt step srcB good s)
    (a : Reader σ) (hInv : Inv a) (hgood : a.closedR = false → good a.src)
    (plen : Nat) :
    (Read step a plen).1 ++ remBytes srcB (Read step a plen).2.2 =
      remBytes srcB a ∧
    Inv (Read step a plen).2.2 ∧
    ((Read step a plen).2.2.closedR = false → good (Read step a plen).2.2.src) := by
  cases he : a.err with
  | some e =>
    simp only [Read, he]
    exact ⟨by simp, hInv, hgood⟩
  | none =>
    obtain ⟨c, a1, hfill, hcur1, herr1, hready1, hbuf1, hsize1, hcount1, hgood1,
      hiff, hrem⟩ := fill_spec step srcB good hspec a hInv hgood he
    rw [← hrem]
    simp only [Read, he, hfill, hcur1]
    have hjoin : c.buffer.take plen ++
        (c.inc (c.buffer.take plen).length).buffer = c.buffer := by
      rw [Buffer.buffer_inc]
      exact take_append_drop_take c.buffer plen
    by_cases hdr : Buffer.isEmpty (some (c.inc (c.buffer.take plen).length))
    · -- chunk drained by this read: latch its error
      rw [if_pos hdr]
      have htake : c.buffer.take plen = c.buffer := by
        apply take_eq_self_of_len_le
        rw [Buffer.isEmpty_some] at hdr
        simp only [Buffer.inc] at hdr
        have hlb : c.buffer.length = c.buf.length - c.offset :=
          List.length_drop c.offset c.buf
        have hlt : (c.buffer.take plen).length = min plen c.buffer.length :=
          List.length_take plen c.buffer
        omega
      refine ⟨?_, ?_, ?_⟩
      · rw [remBytes_latch srcB a1 _ hready1, Buffer.inc_err]
        cases hce : c.err with
        | some e0 =>
          have hcl1 : a1.closedR = true := by rw [← hiff, hce]; rfl
          simp [hcl1, htake]
        | none =>
          have hcl1 : a1.closedR = false := by rw [← hiff, hce]; rfl
          simp only [Option.isSome_none, Bool.false_eq_true, if_false, hcl1]
          rw [← List.append_assoc, hjoin]
      · refine ⟨hready1, hbuf1 ▸ hInv.bpos, ?_, ?_, ?_⟩
        · simpa using hcount1
        · intro hcl
          simp only at hcl
          cases hce : c.err with
          | some e0 => left; simp [Buffer.inc_err, hce]
          | none =>
            rw [← hiff, hce] at hcl
            cases hcl
        · intro c' hc' hce'
          simp only at hc'
          obtain rfl : c.inc (c.buffer.take plen).length = c' :=
            Option.some.inj hc'
          rw [Buffer.inc_err] at hce'
          show a1.closedR = true
          rw [← hiff]
          exact hce'
      · intro h
        simp only at h
        exact hgood1 h
    · -- chunk not yet drained: no error surfaced
      rw [if_neg hdr]
      refine ⟨?_, ?_, ?_⟩
      · rw [remBytes_nolatch srcB a1 _ herr1 hready1,
          ← List.append_assoc, hjoin]
      · refine ⟨hready1, hbuf1 ▸ hInv.bpos, ?_, ?_, ?_⟩
        · simpa using hcount1
        · intro hcl
          simp only at hcl
          right
          refine ⟨c.inc (c.buffer.take plen).length, rfl, ?_, ?_⟩
          · rw [Buffer.inc_err, hiff]
            exact hcl
          · rw [Buffer.isEmpty_some] at hdr
            simp only [Buffer.inc] at hdr ⊢
            omega
        · intro c' hc' hce'
          simp only at hc'
          obtain rfl : c.inc (c.buffer.take plen).length = c' :=
            Option.some.inj hc'
          rw [Buffer.inc_err] at hce'
          show a1.closedR = true
          rw [← hiff]
          exact hce'
      · intro h
        simp only at h
        exact hgood1 h

end Reader

namespace Reader

variable {σ : Type}

theorem runReads_preserves (step : σ → SrcEv × σ) (srcB : σ → List Nat)
    (good : σ → Prop) (hspec : ∀ s, good s → SpecAt step srcB good s)
    (a : Reader σ) (hInv : Inv a) (hgood : a.closedR = false → good a.src)
    (sizes : List Nat) :
    (runReads step a sizes).1 ++ remBytes srcB (runReads step a sizes).2 =
      remBytes srcB a ∧
    Inv (runReads step a sizes).2 ∧
    ((runReads step a sizes).2.closedR = false →
      good (runReads step a sizes).2.src) := by
  induction sizes generalizing a with
  | nil => exact ⟨by simp [runReads], hInv, hgood⟩
  | cons plen rest ih =>
    obtain ⟨h1, h2, h3⟩ := read_preserves step srcB good hspec a hInv hgood plen
    obtain ⟨ih1, ih2, ih3⟩ := ih (Read step a plen).2.2 h2 h3
    refine ⟨?_, ih2, ih3⟩
    simp only [runReads]
    rw [List.append_assoc, ih1, h1]

end Reader

/-! ## Model A satisfies the source contract -/

theorem specL (evs : List SrcEv) (hg : goodL evs) :
    Reader.SpecAt stepL srcBytesL goodL evs := by
  refine ⟨?_, ?_, ?_⟩
  · intro d s' hstep
    cases evs with
    | nil => simp [stepL] at hstep
    | cons ev rest =>
      simp only [stepL] at hstep
      cases hstep
      constructor
      · simp [srcBytesL]
      · intro e he
        exact hg e (List.mem_cons_of_mem _ he)
  · intro d e s' hstep
    cases evs with
    | nil =>
      simp only [stepL, Prod.mk.injEq, SrcEv.ok.injEq] at hstep
      rw [← hstep.1.1]
      rfl
    | cons ev rest =>
      simp only [stepL] at hstep
      cases hstep
      simp [srcBytesL]
  · intro m s' hstep
    cases evs with
    | nil => simp [stepL] at hstep
    | cons ev rest =>
      simp only [stepL] at hstep
      cases hstep
      have := hg (SrcEv.ab m) (List.mem_cons_self _ _)
      simp [SrcEv.isAb] at this

/-! ## C1 -/

/-- C1: Byte-order fidelity.  For every upstream source producing the byte
sequence `srcBytesL events` (under any chunking `events` of the source's own
reads, no abnormal terminations), every positive buffer count, every buffer
size, and every sequence `sizes` of consumer `Read` calls with caller
buffers of any sizes: the bytes delivered so far concatenated with the bytes
still owed always equal the source bytes exactly (no byte duplicated,
dropped, or reordered), and once the terminal condition has been surfaced
(an error is latched) the delivered concatenation equals the source bytes
exactly. -/
theorem c1_byte_order_fidelity (events : List SrcEv) (buffers size : Nat)
    (closer : Option (Option Err)) (sizes : List Nat)
    (hb : 1 ≤ buffers) (hg : goodL events) :
    (Reader.runReads stepL (mkReader events buffers size closer) sizes).1 ++
      Reader.remBytes srcBytesL
        (Reader.runReads stepL (mkReader events buffers size closer) sizes).2 =
      srcBytesL events ∧
    ((Reader.runReads stepL
        (mkReader events buffers size closer) sizes).2.err.isSome = true →
      (Reader.runReads stepL (mkReader events buffers size closer) sizes).1 =
        srcBytesL events) := by
  have h := Reader.runReads_preserves stepL srcBytesL goodL specL
    (mkReader events buffers size closer)
    (Reader.inv_mk events buffers size closer hb) (fun _ => hg) sizes
  have hrem0 :
      Reader.remBytes srcBytesL (mkReader events buffers size closer) =
        srcBytesL events := by
    simp [Reader.remBytes, mkReader]
  refine ⟨by rw [h.1, hrem0], ?_⟩
  intro herr
  have h1 := h.1
  rw [hrem0] at h1
  have hz : Reader.remBytes srcBytesL
      (Reader.runReads stepL (mkReader events buffers size closer) sizes).2 =
        [] := by
    simp [Reader.remBytes, herr]
  rw [hz, List.append_nil] at h1
  exact h1

/-- Witness for C1 at a concrete source, pool and read pattern. -/
theorem c1_byte_order_fidelity_witness :
    (1 ≤ 2 ∧ goodL [.ok [1,2] none, .ok [3] (some .eof)]) ∧
    ((Reader.runReads stepL
        (mkReader [.ok [1,2] none, .ok [3] (some .eof)] 2 2 none)
        [1,5,5]).1 ++
      Reader.remBytes srcBytesL
        (Reader.runReads stepL
          (mkReader [.ok [1,2] none, .ok [3] (some .eof)] 2 2 none)
          [1,5,5]).2 =
      srcBytesL [.ok [1,2] none, .ok [3] (some .eof)] ∧
    ((Reader.runReads stepL
        (mkReader [.ok [1,2] none, .ok [3] (some .eof)] 2 2 none)
        [1,5,5]).2.err.isSome = true →
      (Reader.runReads stepL
        (mkReader [.ok [1,2] none, .ok [3] (some .eof)] 2 2 none)
        [1,5,5]).1 =
        srcBytesL [.ok [1,2] none, .ok [3] (some .eof)])) :=
  ⟨⟨by decide, by simp [goodL, SrcEv.isAb]⟩,
    c1_byte_order_fidelity [.ok [1,2] none, .ok [3] (some .eof)] 2 2 none
      [1,5,5] (by decide) (by simp [goodL, SrcEv.isAb])⟩

/-! ## C2 -/

/-- C2: Terminal latch.  Once the latched error is non-nil, `Read` returns
`(0, that same error)` and `WriteTo` returns `(0, that same error)`, each
leaving the state completely unchanged — in particular no further pull from
the upstream source is performed (the source state is untouched).  Since
the state is unchanged, every subsequent `Read`/`WriteTo` call behaves the
same way.  The latched error is only ever cleared by `init`, which among
the consumer operations is reached only through a successful `Seek`; the
theorems for the reposition claims cover those paths. -/
theorem c2_terminal_latch {σ : Type} (step : σ → SrcEv × σ) (a : Reader σ)
    (sink : List Nat → Nat × Option Err) (fuel plen : Nat) (e : Err)
    (he : a.err = some e) :
    Reader.Read step a plen = ([], some e, a) ∧
    Reader.WriteTo step a sink fuel = some (0, some e, a) := by
  constructor
  · simp [Reader.Read, he]
  · simp [Reader.WriteTo, he]

/-- Witness for C2 on a stream with a latched end-of-data. -/
theorem c2_terminal_latch_witness :
    { mkReader ([] : List SrcEv) 1 1 none with err := some Err.eof }.err =
      some Err.eof ∧
    (Reader.Read stepL
        { mkReader ([] : List SrcEv) 1 1 none with err := some Err.eof } 4 =
      ([], some Err.eof,
        { mkReader ([] : List SrcEv) 1 1 none with err := some Err.eof }) ∧
    Reader.WriteTo stepL
        { mkReader ([] : List SrcEv) 1 1 none with err := some Err.eof }
        (fun l => (l.length, none)) 7 =
      some (0, some Err.eof,
        { mkReader ([] : List SrcEv) 1 1 none with err := some Err.eof })) :=
  ⟨rfl, c2_terminal_latch stepL _ (fun l => (l.length, none)) 7 4 Err.eof rfl⟩

/-! ## C3 -/

/-- C3: Read short-read-with-status semantics.  For a `Read` call with no
error latched and a succeeding `fill` leaving current chunk `c`: exactly
`min plen (len(c.buffer()))` bytes — the front of the chunk's unread
slice — are delivered and the cursor advances by that count; if the chunk
thereby becomes drained (exactly when `len(c.buffer()) ≤ plen`), the
chunk's terminal status (possibly nil) is stored as the latched error and
returned together with the byte count; otherwise a nil error is returned
and the latched error stays nil. -/
theorem c3_read_short_read {σ : Type} (step : σ → SrcEv × σ) (a : Reader σ)
    (a1 : Reader σ) (c : Buffer) (plen : Nat) (he : a.err = none)
    (hfill : Reader.fill step a = (none, a1)) (hcur : a1.cur = some c) :
    (Reader.Read step a plen).1 = c.buffer.take plen ∧
    (Reader.Read step a plen).1.length = min plen c.buffer.length ∧
    (Reader.Read step a plen).2.2.cur =
      some (c.inc (c.buffer.take plen).length) ∧
    (if c.buffer.length ≤ plen then
      (Reader.Read step a plen).2.1 = c.err ∧
        (Reader.Read step a plen).2.2.err = c.err
     else
      (Reader.Read step a plen).2.1 = none ∧
        (Reader.Read step a plen).2.2.err = a1.err) := by
  have hlb : c.buffer.length = c.buf.length - c.offset :=
    List.length_drop c.offset c.buf
  have hlt : (c.buffer.take plen).length = min plen c.buffer.length :=
    List.length_take plen c.buffer
  have hdr : Buffer.isEmpty (some (c.inc (c.buffer.take plen).length)) =
      decide (c.buffer.length ≤ plen) := by
    rw [Buffer.isEmpty]
    simp only [Buffer.inc]
    by_cases h : c.buffer.length ≤ plen
    · simp [h]; omega
    · simp [h]; omega
  simp only [Reader.Read, he, hfill, hcur]
  by_cases h : c.buffer.length ≤ plen
  · rw [hdr]
    simp [h, hlt, Buffer.inc]
  · rw [hdr]
    simp [h, hlt, Buffer.inc]

/-- Witness for C3: a 3-byte chunk read with a 2-byte caller buffer, then
with a large one. -/
theorem c3_read_short_read_witness :
    ((mkReader [SrcEv.ok [7,8,9] (some Err.eof)] 1 3 none).err = none ∧
     Reader.fill stepL (mkReader [SrcEv.ok [7,8,9] (some Err.eof)] 1 3 none) =
       (none, { mkReader ([] : List SrcEv) 1 3 none with
                  closedR := true,
                  reuse := [],
                  cur := some ⟨some Err.eof, [7,8,9], 0, 3⟩ }) ∧
     ({ mkReader ([] : List SrcEv) 1 3 none with
          closedR := true, reuse := [],
          cur := some ⟨some Err.eof, [7,8,9], 0, 3⟩ } : Reader (List SrcEv)).cur =
       some ⟨some Err.eof, [7,8,9], 0, 3⟩) ∧
    ((Reader.Read stepL (mkReader [SrcEv.ok [7,8,9] (some Err.eof)] 1 3 none)
        2).1 = (⟨some Err.eof, [7,8,9], 0, 3⟩ : Buffer).buffer.take 2 ∧
     (Reader.Read stepL (mkReader [SrcEv.ok [7,8,9] (some Err.eof)] 1 3 none)
        2).1.length =
       min 2 (⟨some Err.eof, [7,8,9], 0, 3⟩ : Buffer).buffer.length ∧
     (Reader.Read stepL (mkReader [SrcEv.ok [7,8,9] (some Err.eof)] 1 3 none)
        2).2.2.cur =
       some ((⟨some Err.eof, [7,8,9], 0, 3⟩ : Buffer).inc
         ((⟨some Err.eof, [7,8,9], 0, 3⟩ : Buffer).buffer.take 2).length) ∧
     (if (⟨some Err.eof, [7,8,9], 0, 3⟩ : Buffer).buffer.length ≤ 2 then
       (Reader.Read stepL (mkReader [SrcEv.ok [7,8,9] (some Err.eof)] 1 3 none)
          2).2.1 = (⟨some Err.eof, [7,8,9], 0, 3⟩ : Buffer).err ∧
         (Reader.Read stepL
            (mkReader [SrcEv.ok [7,8,9] (some Err.eof)] 1 3 none) 2).2.2.err =
           (⟨some Err.eof, [7,8,9], 0, 3⟩ : Buffer).err
      else
       (Reader.Read stepL (mkReader [SrcEv.ok [7,8,9] (some Err.eof)] 1 3 none)
          2).2.1 = none ∧
         (Reader.Read stepL
            (mkReader [SrcEv.ok [7,8,9] (some Err.eof)] 1 3 none) 2).2.2.err =
           ({ mkReader ([] : List SrcEv) 1 3 none with
                closedR := true, reuse := [],
                cur := some ⟨some Err.eof, [7,8,9], 0, 3⟩ } :
              Reader (List SrcEv)).err)) :=
  ⟨⟨by decide, by decide, by decide⟩,
    c3_read_short_read stepL
      (mkReader [SrcEv.ok [7,8,9] (some Err.eof)] 1 3 none)
      { mkReader ([] : List SrcEv) 1 3 none with
          closedR := true, reuse := [],
          cur := some ⟨some Err.eof, [7,8,9], 0, 3⟩ }
      ⟨some Err.eof, [7,8,9], 0, 3⟩ 2 (by decide) (by decide) (by decide)⟩

/-! ## C4 -/

/-- C4: WriteTo (bulk drain) semantics, stated on the drain loop at an
arbitrary accumulated byte total `n` (and tied to `WriteTo` itself by the
first conjunct).  With no error latched and `fill` succeeding with current
chunk `c`: (a) if the sink reports a failure, the loop returns immediately
with that failure and the updated total — the state keeps `a1`'s source,
so no further fetch attempt is made; (b) if the sink accepts the chunk and
the chunk's terminal status is end-of-data, the loop returns the total with
a nil error while latching end-of-data internally; (c) any other terminal
status is latched and returned as a failure together with the total. -/
theorem c4_writeto_semantics {σ : Type} (step : σ → SrcEv × σ)
    (a a1 : Reader σ) (c : Buffer) (fuel n : Nat)
    (he : a.err = none) (hfill : Reader.fill step a = (none, a1))
    (hcur : a1.cur = some c) :
    (∀ sink, Reader.WriteTo step a sink fuel =
      Reader.writeToLoop step sink fuel a 0) ∧
    (∀ sink n2 we, sink c.buffer = (n2, some we) →
      Reader.writeToLoop step sink (fuel + 1) a n =
        some (n + n2, some we, { a1 with cur := some (c.inc n2) })) ∧
    (∀ sink n2, sink c.buffer = (n2, none) → c.err = some Err.eof →
      Reader.writeToLoop step sink (fuel + 1) a n =
        some (n + n2, none,
          { a1 with cur := some (c.inc n2), err := some Err.eof })) ∧
    (∀ sink n2 e, sink c.buffer = (n2, none) → c.err = some e →
      e ≠ Err.eof →
      Reader.writeToLoop step sink (fuel + 1) a n =
        some (n + n2, some e,
          { a1 with cur := some (c.inc n2), err := some e })) := by
  refine ⟨?_, ?_, ?_, ?_⟩
  · intro sink
    simp [Reader.WriteTo, he]
  · intro sink n2 we hsink
    simp [Reader.writeToLoop, hfill, hcur, hsink]
  · intro sink n2 hsink hce
    simp [Reader.writeToLoop, hfill, hcur, hsink, Buffer.inc, hce]
  · intro sink n2 e hsink hce hne
    simp [Reader.writeToLoop, hfill, hcur, hsink, Buffer.inc, hce, hne]

/-- Witness for C4: a stream whose single chunk carries end-of-data (sink
failure and EOF cases) and one whose chunk carries a genuine failure. -/
theorem c4_writeto_semantics_witness :
    ((mkReader [SrcEv.ok [5,6] (some Err.eof)] 1 2 none).err = none ∧
     (fun _ => (1, some (Err.other "werr"))) (⟨some Err.eof, [5,6], 0, 2⟩ :
        Buffer).buffer = (1, some (Err.other "werr")) ∧
     (fun l => (l.length, (none : Option Err))) (⟨some Err.eof, [5,6], 0, 2⟩ :
        Buffer).buffer = (2, none) ∧
     (⟨some Err.eof, [5,6], 0, 2⟩ : Buffer).err = some Err.eof) ∧
    (Reader.writeToLoop stepL (fun _ => (1, some (Err.other "werr"))) 4
        (mkReader [SrcEv.ok [5,6] (some Err.eof)] 1 2 none) 0 =
      some (0 + 1, some (Err.other "werr"),
        { mkReader ([] : List SrcEv) 1 2 none with
            closedR := true, reuse := [],
            cur := some ((⟨some Err.eof, [5,6], 0, 2⟩ : Buffer).inc 1) }) ∧
     Reader.writeToLoop stepL (fun l => (l.length, none)) 4
        (mkReader [SrcEv.ok [5,6] (some Err.eof)] 1 2 none) 0 =
      some (0 + 2, none,
        { mkReader ([] : List SrcEv) 1 2 none with
            closedR := true, reuse := [],
            cur := some ((⟨some Err.eof, [5,6], 0, 2⟩ : Buffer).inc 2),
            err := some Err.eof }) ∧
     Reader.writeToLoop stepL (fun l => (l.length, none)) 4
        (mkReader [SrcEv.ok [5,6] (some (Err.other "bad"))] 1 2 none) 0 =
      some (0 + 2, some (Err.other "bad"),
        { mkReader ([] : List SrcEv) 1 2 none with
            closedR := true, reuse := [],
            cur := some ((⟨some (Err.other "bad"), [5,6], 0, 2⟩ : Buffer).inc 2),
            err := some (Err.other "bad") })) := by
  refine ⟨⟨by decide, by decide, by decide, by decide⟩, ?_, ?_, ?_⟩
  · exact (c4_writeto_semantics stepL
      (mkReader [SrcEv.ok [5,6] (some Err.eof)] 1 2 none)
      { mkReader ([] : List SrcEv) 1 2 none with
          closedR := true, reuse := [],
          cur := some ⟨some Err.eof, [5,6], 0, 2⟩ }
      ⟨some Err.eof, [5,6], 0, 2⟩ 3 0 (by decide) (by decide)
      (by decide)).2.1 (fun _ => (1, some (Err.other "werr"))) 1
      (Err.other "werr") (by decide)
  · exact (c4_writeto_semantics stepL
      (mkReader [SrcEv.ok [5,6] (some Err.eof)] 1 2 none)
      { mkReader ([] : List SrcEv) 1 2 none with
          closedR := true, reuse := [],
          cur := some ⟨some Err.eof, [5,6], 0, 2⟩ }
      ⟨some Err.eof, [5,6], 0, 2⟩ 3 0 (by decide) (by decide)
      (by decide)).2.2.1 (fun l => (l.length, none)) 2 (by decide) (by decide)
  · exact (c4_writeto_semantics stepL
      (mkReader [SrcEv.ok [5,6] (some (Err.other "bad"))] 1 2 none)
      { mkReader ([] : List SrcEv) 1 2 none with
          closedR := true, reuse := [],
          cur := some ⟨some (Err.other "bad"), [5,6], 0, 2⟩ }
      ⟨some (Err.other "bad"), [5,6], 0, 2⟩ 3 0 (by decide) (by decide)
      (by decide)).2.2.2 (fun l => (l.length, none)) 2 (Err.other "bad")
      (by decide) (by decide) (by decide)

/-! ## C7 -/

namespace Reader

variable {σ : Type}

theorem close_closer_none (a : Reader σ) : (Close a).2.closer = none := by
  rw [Close]
  cases hc : a.closer <;> simp [hc]

theorem close_calls_le (a : Reader σ) :
    (Close a).2.closerCalls ≤ a.closerCalls + 1 := by
  rw [Close]
  cases hc : a.closer <;> simp [hc]

theorem close_of_closer_none (a : Reader σ) (h : a.closer = none) :
    Close a =
      (none, { a with closedR := true, err := some Err.readAfterClose }) := by
  rw [Close]
  simp [h]

theorem closeIter_of_closer_none (n : Nat) (a : Reader σ)
    (h : a.closer = none) :
    (closeIter n a).closer = none ∧
    (closeIter n a).closerCalls = a.closerCalls := by
  induction n generalizing a with
  | zero => exact ⟨h, rfl⟩
  | succ n ih =>
    have hc := close_of_closer_none a h
    show (closeIter n (Close a).2).closer = none ∧
      (closeIter n (Close a).2).closerCalls = a.closerCalls
    rw [hc]
    exact ih _ (by simpa using h)

theorem closeIter_spec (n : Nat) (hn : 1 ≤ n) (a : Reader σ) :
    (closeIter n a).closer = none ∧
    (closeIter n a).closerCalls ≤ a.closerCalls + 1 := by
  cases n with
  | zero => omega
  | succ m =>
    obtain ⟨h1, h2⟩ :=
      closeIter_of_closer_none m (Close a).2 (close_closer_none a)
    refine ⟨h1, ?_⟩
    show (closeIter m (Close a).2).closerCalls ≤ a.closerCalls + 1
    rw [h2]
    exact close_calls_le a

end Reader

/-- C7: Close idempotence and at-most-once release.  After any positive
number of `Close` calls, the stored closer has been consumed, the next
`Close` call returns a nil error, and the underlying closer has been
invoked at most once in total (the instrumentation counter rose by at most
one over the whole sequence). -/
theorem c7_close_idempotent {σ : Type} (a : Reader σ) (n : Nat)
    (hn : 1 ≤ n) :
    (Reader.closeIter n a).closer = none ∧
    (Reader.Close (Reader.closeIter n a)).1 = none ∧
    (Reader.Close (Reader.closeIter n a)).2.closerCalls =
      (Reader.closeIter n a).closerCalls ∧
    (Reader.closeIter n a).closerCalls ≤ a.closerCalls + 1 := by
  obtain ⟨h1, h2⟩ := Reader.closeIter_spec n hn a
  have hc := Reader.close_of_closer_none (Reader.closeIter n a) h1
  exact ⟨h1, by rw [hc], by rw [hc], h2⟩

/-- Witness for C7: a reader owning a closer, closed twice. -/
theorem c7_close_idempotent_witness :
    1 ≤ 2 ∧
    ((Reader.closeIter 2 (mkReader ([] : List SrcEv) 1 1 (some none))).closer =
       none ∧
     (Reader.Close (Reader.closeIter 2
        (mkReader ([] : List SrcEv) 1 1 (some none)))).1 = none ∧
     (Reader.Close (Reader.closeIter 2
        (mkReader ([] : List SrcEv) 1 1 (some none)))).2.closerCalls =
       (Reader.closeIter 2 (mkReader ([] : List SrcEv) 1 1 (some none))).closerCalls ∧
     (Reader.closeIter 2
        (mkReader ([] : List SrcEv) 1 1 (some none))).closerCalls ≤
       (mkReader ([] : List SrcEv) 1 1 (some none)).closerCalls + 1) :=
  ⟨by decide, c7_close_idempotent (mkReader ([] : List SrcEv) 1 1 (some none))
    2 (by decide)⟩

/-! ## C8 -/

/-- C8 counterexample: a stream built with a closer (`NewReadCloserSize`
path) whose first chunk is only half consumed.  After the first `Close`
returns, the latched error is still nil — not the used-after-close
condition — and the next `Read` returns one buffered byte with a nil
error, not `(0, read-after-Close)`.  This refutes the claim that after the
first `Close` the latched error is set and every subsequent `Read` fails,
regardless of whether a closer was supplied. -/
theorem c8_counterexample :
    (Reader.Close (Reader.Read stepL
        (mkReader [SrcEv.ok [1,2] none, SrcEv.ok [] (some Err.eof)] 2 2
          (some none)) 1).2.2).2.err = none ∧
    (Reader.Read stepL (Reader.Close (Reader.Read stepL
        (mkReader [SrcEv.ok [1,2] none, SrcEv.ok [] (some Err.eof)] 2 2
          (some none)) 1).2.2).2 1).1 = [2] ∧
    (Reader.Read stepL (Reader.Close (Reader.Read stepL
        (mkReader [SrcEv.ok [1,2] none, SrcEv.ok [] (some Err.eof)] 2 2
          (some none)) 1).2.2).2 1).2.1 = none ∧
    ¬((Reader.Close (Reader.Read stepL
        (mkReader [SrcEv.ok [1,2] none, SrcEv.ok [] (some Err.eof)] 2 2
          (some none)) 1).2.2).2.err = some Err.readAfterClose ∧
      (Reader.Read stepL (Reader.Close (Reader.Read stepL
        (mkReader [SrcEv.ok [1,2] none, SrcEv.ok [] (some Err.eof)] 2 2
          (some none)) 1).2.2).2 1).1.length = 0 ∧
      (Reader.Read stepL (Reader.Close (Reader.Read stepL
        (mkReader [SrcEv.ok [1,2] none, SrcEv.ok [] (some Err.eof)] 2 2
          (some none)) 1).2.2).2 1).2.1 = some Err.readAfterClose) := by
  decide

/-- C8 amended: after the first `Close`, when no closer was supplied the
latched error is set to read-after-Close at once and every subsequent
`Read` returns `(0, read-after-Close)`; when a closer was supplied, `Close`
leaves the latched error unchanged (nil here), and a subsequent `Read`
returns `(0, read-after-Close)` only once nothing remains buffered
(current chunk empty, ready queue drained) — the error being synthesized
and latched by `fill` on the closed ready channel. -/
theorem c8_amended_used_after_close {σ : Type} (step : σ → SrcEv × σ)
    (a : Reader σ) (plen : Nat) :
    (a.closer = none →
      (Reader.Close a).2.err = some Err.readAfterClose ∧
      Reader.Read step (Reader.Close a).2 plen =
        ([], some Err.readAfterClose, (Reader.Close a).2)) ∧
    (∀ r, a.closer = some r → a.err = none →
      Buffer.isEmpty a.cur = true → a.ready = [] →
      (Reader.Close a).2.err = none ∧
      (Reader.Read step (Reader.Close a).2 plen).1 = [] ∧
      (Reader.Read step (Reader.Close a).2 plen).2.1 =
        some Err.readAfterClose ∧
      (Reader.Read step (Reader.Close a).2 plen).2.2.err =
        some Err.readAfterClose) := by
  constructor
  · intro h
    rw [Reader.close_of_closer_none a h]
    constructor
    · rfl
    · simp [Reader.Read]
  · intro r hr he hcur hready
    have hclose : (Reader.Close a).2 =
        { a with closedR := true, closer := none,
                 closerCalls := a.closerCalls + 1 } := by
      rw [Reader.Close]
      simp [hr]
    rw [hclose]
    refine ⟨he, ?_⟩
    cases hc : a.cur with
    | none =>
      simp [Reader.Read, Reader.fill, he, hc, hready, Buffer.isEmpty]
    | some c =>
      rw [hc] at hcur
      simp [Reader.Read, Reader.fill, he, hc, hready, hcur]

/-- Witness for the amended C8, on a closer-less reader and on a reader
owning a closer with nothing buffered. -/
theorem c8_amended_used_after_close_witness :
    ((mkReader ([] : List SrcEv) 1 1 none).closer = none ∧
     (Reader.Close (mkReader ([] : List SrcEv) 1 1 none)).2.err =
       some Err.readAfterClose ∧
     Reader.Read stepL (Reader.Close (mkReader ([] : List SrcEv) 1 1 none)).2
       3 = ([], some Err.readAfterClose,
         (Reader.Close (mkReader ([] : List SrcEv) 1 1 none)).2)) ∧
    ((mkReader ([] : List SrcEv) 1 1 (some none)).closer = some none ∧
     (Reader.Close (mkReader ([] : List SrcEv) 1 1 (some none))).2.err =
       none ∧
     (Reader.Read stepL
        (Reader.Close (mkReader ([] : List SrcEv) 1 1 (some none))).2 3).1 =
       [] ∧
     (Reader.Read stepL
        (Reader.Close (mkReader ([] : List SrcEv) 1 1 (some none))).2 3).2.1 =
       some Err.readAfterClose ∧
     (Reader.Read stepL
        (Reader.Close (mkReader ([] : List SrcEv) 1 1 (some none))).2
        3).2.2.err = some Err.readAfterClose) :=
  ⟨⟨rfl,
    (c8_amended_used_after_close stepL (mkReader ([] : List SrcEv) 1 1 none)
      3).1 rfl⟩,
   ⟨rfl,
    (c8_amended_used_after_close stepL
      (mkReader ([] : List SrcEv) 1 1 (some none)) 3).2 none rfl rfl
      (by decide) rfl⟩⟩

/-! ## C9 -/

/-- C9: Panic containment in fetch.  `buffer.read` converts an abnormal
termination of the upstream pull into an ordinary error which it both
stores as the chunk's terminal status and returns (first conjunct, for any
buffer and message).  Consequently, draining a stream over a source whose
(only ever attempted) pull aborts terminates with that surfaced failure:
the fetch loop publishes the chunk carrying the converted error and exits.
The drained byte count equals the buffer size because the recovered fetch
leaves the freshly allocated zeroed buffer in place (`b.buf = b.buf[0:n]`
never executes), exactly as in the Go code. -/
theorem c9_panic_containment (b : Buffer) (msg : String) (buffers size : Nat)
    (hb : 1 ≤ buffers) :
    (b.read (SrcEv.ab msg)).err =
      some (Err.other ("panic reading: " ++ msg)) ∧
    (b.read (SrcEv.ab msg)).buf = b.buf ∧
    (b.read (SrcEv.ab msg)).offset = b.offset ∧
    Reader.WriteTo stepL (mkReader [SrcEv.ab msg] buffers size none)
        (fun l => (l.length, none)) 2 =
      some (size, some (Err.other ("panic reading: " ++ msg)),
        { mkReader ([] : List SrcEv) buffers size none with
            closedR := true,
            reuse := List.replicate (buffers - 1) (newBuffer size),
            cur := some ⟨some (Err.other ("panic reading: " ++ msg)),
              List.replicate size 0, size, size⟩,
            err := some (Err.other ("panic reading: " ++ msg)) }) := by
  refine ⟨rfl, rfl, rfl, ?_⟩
  obtain ⟨rb, hb'⟩ : ∃ m, buffers = m + 1 := ⟨buffers - 1, by omega⟩
  subst hb'
  simp only [Reader.WriteTo, mkReader, Reader.writeToLoop, Reader.fill,
    Reader.fetchOne, stepL, Buffer.read, Buffer.isEmpty, List.replicate]
  simp [Buffer.buffer, Buffer.inc, newBuffer, List.replicate]

/-- Witness for C9: a source that aborts on the pull, pool of 2 buffers of
3 bytes. -/
theorem c9_panic_containment_witness :
    1 ≤ 2 ∧
    (((⟨none, [9], 1, 1⟩ : Buffer).read (SrcEv.ab "boom")).err =
       some (Err.other ("panic reading: " ++ "boom")) ∧
     ((⟨none, [9], 1, 1⟩ : Buffer).read (SrcEv.ab "boom")).buf =
       (⟨none, [9], 1, 1⟩ : Buffer).buf ∧
     ((⟨none, [9], 1, 1⟩ : Buffer).read (SrcEv.ab "boom")).offset =
       (⟨none, [9], 1, 1⟩ : Buffer).offset ∧
     Reader.WriteTo stepL (mkReader [SrcEv.ab "boom"] 2 3 none)
        (fun l => (l.length, none)) 2 =
       some (3, some (Err.other ("panic reading: " ++ "boom")),
         { mkReader ([] : List SrcEv) 2 3 none with
             closedR := true,
             reuse := List.replicate (2 - 1) (newBuffer 3),
             cur := some ⟨some (Err.other ("panic reading: " ++ "boom")),
               List.replicate 3 0, 3, 3⟩,
             err := some (Err.other ("panic reading: " ++ "boom")) })) :=
  ⟨by decide, c9_panic_containment ⟨none, [9], 1, 1⟩ "boom" 2 3 (by decide)⟩

/-! ## C10 -/

/-- C10 (implicit): for a stream constructed via `NewReaderAt`, every pull
performed by the fetch loop on the wrapped source is `ReadAt(p, 0)` with a
fixed offset of 0, independent of the source state (first conjunct: the
step has the same result at every state, namely the offset-0 read); hence
successive chunk fetches all return the bytes at absolute offset 0 of the
source: the first and the second consumer read of `size` bytes both
deliver `content.take size` — the stream re-reads the start instead of
advancing. -/
theorem c10_readerat_fixed_offset (content : List Nat) (size m : Nat)
    (hsz : size ≤ content.length) :
    (∀ u : Unit, readeratStep content size u =
      (SrcEv.ok (content.take size) none, u)) ∧
    readeratRead content size = ((content.drop 0).take size, none) ∧
    (Reader.Read (readeratStep content size)
        (mkReader () (m + 1) size none) size).1 = content.take size ∧
    (Reader.Read (readeratStep content size)
        ((Reader.Read (readeratStep content size)
          (mkReader () (m + 1) size none) size).2.2) size).1 =
      content.take size := by
  have hlen : (content.take size).length = size := by
    rw [List.length_take]; omega
  have hstep : ∀ u : Unit, readeratStep content size u =
      (SrcEv.ok (content.take size) none, u) := by
    intro u
    simp [readeratStep, readeratRead, readAt, List.length_take]
    omega
  have hread1 : Reader.Read (readeratStep content size)
      (mkReader () (m + 1) size none) size =
      (content.take size, none,
        { src := (), reuse := List.replicate m (newBuffer size), ready := [],
          closedR := false,
          cur := some ⟨none, content.take size, size, size⟩, err := none,
          closer := none, closerCalls := 0, size := size,
          buffers := m + 1 }) := by
    simp only [Reader.Read, mkReader, Reader.fill, Reader.fetchOne,
      List.replicate_succ, hstep, Buffer.isEmpty, Buffer.read, Buffer.buffer,
      Buffer.inc, newBuffer]
    simp [List.take_take, hlen, Buffer.isEmpty]
  refine ⟨hstep, ?_, ?_, ?_⟩
  · simp [readeratRead, readAt, List.length_take]
    omega
  · rw [hread1]
  · rw [hread1]
    cases m with
    | zero =>
      simp only [Reader.Read, Reader.fill, Reader.fetchOne,
        List.replicate, hstep, Buffer.isEmpty, Buffer.read, Buffer.buffer,
        Buffer.inc]
      simp [List.take_take, hlen, Buffer.isEmpty]
    | succ m' =>
      simp only [Reader.Read, Reader.fill, Reader.fetchOne,
        List.replicate_succ, hstep, Buffer.isEmpty, Buffer.read,
        Buffer.buffer, Buffer.inc, newBuffer]
      simp [List.take_take, hlen, Buffer.isEmpty]

/-- Witness for C10: a 5-byte ReaderAt source behind a 2-byte-chunk,
4-buffer stream: both of the first two reads deliver bytes 0-1. -/
theorem c10_readerat_fixed_offset_witness :
    2 ≤ ([1,2,3,4,5] : List Nat).length ∧
    ((∀ u : Unit, readeratStep [1,2,3,4,5] 2 u =
        (SrcEv.ok (([1,2,3,4,5] : List Nat).take 2) none, u)) ∧
     readeratRead [1,2,3,4,5] 2 =
       ((([1,2,3,4,5] : List Nat).drop 0).take 2, none) ∧
     (Reader.Read (readeratStep [1,2,3,4,5] 2)
        (mkReader () (3 + 1) 2 none) 2).1 = ([1,2,3,4,5] : List Nat).take 2 ∧
     (Reader.Read (readeratStep [1,2,3,4,5] 2)
        ((Reader.Read (readeratStep [1,2,3,4,5] 2)
          (mkReader () (3 + 1) 2 none) 2).2.2) 2).1 =
       ([1,2,3,4,5] : List Nat).take 2) :=
  ⟨by decide, c10_readerat_fixed_offset [1,2,3,4,5] 2 3 (by decide)⟩

/-! ## Seek machinery -/

theorem drop_min_self (l : List Nat) (n : Nat) :
    l.drop (min n l.length) = l.drop n := by
  rcases le_total n l.length with h | h
  · rw [min_eq_left h]
  · rw [min_eq_right h, List.drop_length]
    exact (List.drop_eq_nil_of_le h).symm

theorem specP (size : Nat) (s : SeekSrc) (_ : goodP s) :
    Reader.SpecAt (seekStep size) srcBytesP goodP s := by
  refine ⟨?_, ?_, ?_⟩
  · intro d s' hstep
    rw [seekStep] at hstep
    by_cases hrem : (s.content.drop s.pos).isEmpty
    · rw [if_pos hrem] at hstep
      injection hstep with h1 h2
      injection h1 with hd he
      cases he
    · rw [if_neg hrem] at hstep
      injection hstep with h1 h2
      injection h1 with hd he
      subst hd
      subst h2
      refine ⟨?_, trivial⟩
      rw [srcBytesP, srcBytesP]
      simp only
      rw [← List.drop_drop, drop_min_self, List.take_append_drop]
  · intro d e s' hstep
    rw [seekStep] at hstep
    by_cases hrem : (s.content.drop s.pos).isEmpty
    · rw [if_pos hrem] at hstep
      injection hstep with h1 h2
      injection h1 with hd he
      subst hd
      rw [srcBytesP]
      rw [List.isEmpty_iff] at hrem
      exact hrem
    · rw [if_neg hrem] at hstep
      injection hstep with h1 h2
      injection h1 with hd he
      cases he
  · intro msg s' hstep
    rw [seekStep] at hstep
    by_cases hrem : (s.content.drop s.pos).isEmpty
    · rw [if_pos hrem] at hstep
      injection hstep with h1 h2
      cases h1
    · rw [if_neg hrem] at hstep
      injection hstep with h1 h2
      cases h1

namespace Reader

theorem inv_initState {σ : Type} (a : Reader σ) (src : σ)
    (buffers size : Nat) (hb : 1 ≤ buffers) :
    Inv (a.initState src buffers size) := by
  refine ⟨rfl, hb, ?_, ?_, ?_⟩ <;> simp [initState]

theorem remBytes_initState {σ : Type} (srcB : σ → List Nat) (a : Reader σ)
    (src : σ) (buffers size : Nat) :
    remBytes srcB (a.initState src buffers size) = srcB src := by
  simp [remBytes, initState]

end Reader

namespace Reader

theorem seekLoop_drained (step : SeekSrc → SrcEv × SeekSrc) :
    ∀ (r : List Buffer) (a : Reader SeekSrc) (offset : Int) (fuel : Nat)
    (c : Buffer), a.ready = r → a.closedR = true → a.cur = some c →
    Buffer.isEmpty (some c) = true → r.length + 2 ≤ fuel →
    ∃ a', seekLoop step fuel a offset =
      (offset - ((r.map (fun b => b.buffer.length)).sum : Int), a') ∧
      a'.src = a.src ∧ a'.cur = none ∧ a'.ready = [] ∧
      a'.closedR = true ∧ a'.buffers = a.buffers ∧ a'.size = a.size ∧
      a'.closer = a.closer ∧ a'.closerCalls = a.closerCalls ∧
      a'.err = some (a.err.getD Err.readAfterClose) := by
  intro r
  induction r with
  | nil =>
    intro a offset fuel c hr hcl hc hce hfuel
    obtain ⟨f1, rfl⟩ : ∃ m, fuel = m + 2 := ⟨fuel - 2, by omega⟩
    cases he : a.err with
    | none =>
      have hfill : fill step a = (some Err.readAfterClose,
          { a with
            reuse := a.reuse ++ [c]
            cur := none
            err := some Err.readAfterClose }) := by
        simp only [fill, hc, hce, if_true]
        simp [hr, hcl, he]
      refine ⟨{ a with
          reuse := a.reuse ++ [c]
          cur := none
          err := some Err.readAfterClose },
        ?_, rfl, rfl, hr, hcl, rfl, rfl, rfl, rfl, by simp [he]⟩
      show seekLoop step (f1 + 1 + 1) a offset = _
      rw [seekLoop]
      rw [hc]
      simp only [hfill]
      rw [seekLoop]
      simp
    | some e =>
      have hfill : fill step a = (some e,
          { a with
            reuse := a.reuse ++ [c]
            cur := none }) := by
        simp only [fill, hc, hce, if_true]
        simp [hr, hcl, he]
      refine ⟨{ a with
          reuse := a.reuse ++ [c]
          cur := none },
        ?_, rfl, rfl, hr, hcl, rfl, rfl, rfl, rfl, by simp [he]⟩
      show seekLoop step (f1 + 1 + 1) a offset = _
      rw [seekLoop]
      rw [hc]
      simp only [hfill]
      rw [seekLoop]
      simp
  | cons rb rest ih =>
    intro a offset fuel c hr hcl hc hce hfuel
    obtain ⟨f1, rfl⟩ : ∃ m, fuel = m + 1 := ⟨fuel - 1, by omega⟩
    have hfill : fill step a =
        (none, { a with
          reuse := a.reuse ++ [c]
          cur := some rb
          ready := rest }) := by
      simp only [fill, hc, hce, if_true]
      simp [hr, hcl]
    obtain ⟨a', ha', hsrc, hcur, hready, hcl', hbuf, hsize, hcloser, hcalls,
      herr⟩ := ih
      { a with
        reuse := a.reuse ++ [c]
        ready := rest
        cur := some { rb with offset := rb.buf.length } }
      (offset - (rb.buffer.length : Int)) f1
      { rb with offset := rb.buf.length } rfl (by simpa using hcl) rfl
      (by simp [Buffer.isEmpty]) (by simp at hfuel; omega)
    refine ⟨a', ?_, by simpa using hsrc, hcur, hready, hcl',
      by simpa using hbuf, by simpa using hsize, by simpa using hcloser,
      by simpa using hcalls, by simpa using herr⟩
    rw [seekLoop]
    rw [hc]
    simp only [hfill]
    rw [ha']
    congr 1
    simp
    ring

end Reader

namespace Reader

theorem buffer_len_zero_of_isEmpty {c : Buffer}
    (h : Buffer.isEmpty (some c) = true) : c.buffer.length = 0 := by
  rw [Buffer.isEmpty_some] at h
  rw [Buffer.buffer, List.length_drop]
  omega

/-- Running the `io.SeekCurrent` adjustment loop from any quiesced state
holding a current chunk: the total subtracted from the offset is exactly
the buffered-but-unconsumed byte count (current chunk plus ready queue),
the source is untouched, and the loop ends with no current chunk. -/
theorem seekLoop_spec (step : SeekSrc → SrcEv × SeekSrc)
    (a : Reader SeekSrc) (offset : Int) (fuel : Nat) (c : Buffer)
    (hcl : a.closedR = true) (hc : a.cur = some c)
    (hfuel : a.ready.length + 3 ≤ fuel) :
    ∃ a', seekLoop step fuel a offset =
      (offset - (bufferedBytes a : Int), a') ∧
      a'.src = a.src ∧ a'.cur = none ∧
      a'.closedR = true ∧ a'.buffers = a.buffers ∧ a'.size = a.size ∧
      a'.closer = a.closer ∧ a'.closerCalls = a.closerCalls ∧
      a'.err = some (a.err.getD Err.readAfterClose) := by
  have hbufN : bufferedBytes a =
      c.buffer.length + (a.ready.map (fun b => b.buffer.length)).sum := by
    rw [bufferedBytes, hc]
  have hcomp : (List.map (Nat.cast ∘ fun b : Buffer => b.buffer.length)
        a.ready).sum =
      (List.map (fun b : Buffer => (b.buffer.length : Int)) a.ready).sum :=
    rfl
  by_cases hce : Buffer.isEmpty (some c)
  · obtain ⟨a', ha', hsrc, hcur, _, hcl', hbuf, hsize, hcloser, hcalls,
      herr⟩ := seekLoop_drained step a.ready a offset fuel c rfl hcl hc hce
      (by omega)
    refine ⟨a', ?_, hsrc, hcur, hcl', hbuf, hsize, hcloser, hcalls, herr⟩
    rw [ha']
    congr 1
    rw [hbufN, buffer_len_zero_of_isEmpty hce]
    push_cast
    rw [List.map_map, hcomp]
    ring
  · obtain ⟨f1, rfl⟩ : ∃ m, fuel = m + 1 := ⟨fuel - 1, by omega⟩
    have hfillnop : fill step a = (none, a) := by
      simp [fill, hc, hce]
    obtain ⟨a', ha', hsrc, hcur, _, hcl', hbuf, hsize, hcloser, hcalls,
      herr⟩ := seekLoop_drained step a.ready
      { a with cur := some { c with offset := c.buf.length } }
      (offset - (c.buffer.length : Int)) f1
      { c with offset := c.buf.length } rfl (by simpa using hcl) rfl
      (by simp [Buffer.isEmpty]) (by simp at hfuel ⊢; omega)
    refine ⟨a', ?_, by simpa using hsrc, hcur, hcl',
      by simpa using hbuf, by simpa using hsize, by simpa using hcloser,
      by simpa using hcalls, by simpa using herr⟩
    simp only [seekLoop, hc, hfillnop]
    rw [ha']
    congr 1
    rw [hbufN]
    push_cast
    rw [List.map_map, hcomp]
    ring

end Reader

/-! ## C5 -/

/-- C5 counterexample: a freshly constructed stream whose fetch loop has
prefetched one 2-byte chunk into the ready queue while the consumer has
not yet read (current chunk nil).  `bufferedBytes` is 2, the consumer's
logical position is 0, yet `Seek(0, io.SeekCurrent)` skips the adjustment
loop entirely (the loop guard is `cur != nil`), passes the unadjusted
offset 0 to the underlying seeker and lands at absolute position 2 — not
at the claimed buffered-adjusted position 0.  This refutes the claim that
SeekCurrent always subtracts the buffered-but-unconsumed bytes across the
current chunk and every chunk pending in the ready queue. -/
theorem c5_counterexample :
    Reader.bufferedBytes
      (Reader.prefetch (seekStep 2)
        (mkReader (⟨[1,2,3,4], 0, false⟩ : SeekSrc) 4 2 none)) = 2 ∧
    (Reader.Seek
      (Reader.prefetch (seekStep 2)
        (mkReader (⟨[1,2,3,4], 0, false⟩ : SeekSrc) 4 2 none))
      0 Whence.current).1 = 2 ∧
    (Reader.Seek
      (Reader.prefetch (seekStep 2)
        (mkReader (⟨[1,2,3,4], 0, false⟩ : SeekSrc) 4 2 none))
      0 Whence.current).2.2.src.pos = 2 ∧
    ¬((Reader.Seek
        (Reader.prefetch (seekStep 2)
          (mkReader (⟨[1,2,3,4], 0, false⟩ : SeekSrc) 4 2 none))
        0 Whence.current).1 =
      ((Reader.prefetch (seekStep 2)
          (mkReader (⟨[1,2,3,4], 0, false⟩ : SeekSrc) 4 2 none)).src.pos : Int)
        + 0 -
        (Reader.bufferedBytes
          (Reader.prefetch (seekStep 2)
            (mkReader (⟨[1,2,3,4], 0, false⟩ : SeekSrc) 4 2 none)) : Int)) := by
  decide

/-- C5 amended: (a) after `Seek(k, io.SeekStart)` succeeds the pipeline is
fully reinitialized at absolute offset `k`; (b) reads from a freshly
initialized pipeline at position `p` deliver exactly the bytes of a fresh
read of the source from offset `p` (delivered ++ still-owed equals
`content.drop p`, with equality once the terminal is surfaced); (c) for
`Seek(offset, io.SeekCurrent)` the buffered-but-unconsumed bytes across
the current chunk and the ready queue are subtracted before repositioning
— provided the current chunk is non-nil (at least one `fill` has occurred
and the loop guard `cur != nil` passes; the counterexample shows the
adjustment is skipped otherwise), so the stream lands at
(source position - buffered) + offset, i.e. relative to the consumer's
logical position. -/
theorem c5_amended_reposition :
    (∀ (a : Reader SeekSrc) (k : Int), a.src.failSeek = false → 0 ≤ k →
      Reader.Seek a k Whence.start =
        (k, none,
          a.initState { a.src with pos := k.toNat } a.buffers a.size)) ∧
    (∀ (a0 : Reader SeekSrc) (src : SeekSrc) (buffers size : Nat)
        (sizes : List Nat), 1 ≤ buffers →
      (Reader.runReads (seekStep size) (a0.initState src buffers size)
          sizes).1 ++
        Reader.remBytes srcBytesP
          (Reader.runReads (seekStep size) (a0.initState src buffers size)
            sizes).2 =
        src.content.drop src.pos ∧
      ((Reader.runReads (seekStep size) (a0.initState src buffers size)
          sizes).2.err.isSome = true →
        (Reader.runReads (seekStep size) (a0.initState src buffers size)
          sizes).1 = src.content.drop src.pos)) ∧
    (∀ (a : Reader SeekSrc) (off : Int) (c : Buffer), a.cur = some c →
      a.src.failSeek = false →
      0 ≤ (a.src.pos : Int) + (off - (Reader.bufferedBytes a : Int)) →
      Reader.Seek a off Whence.current =
        ((a.src.pos : Int) + (off - (Reader.bufferedBytes a : Int)), none,
          a.initState
            { a.src with
              pos := ((a.src.pos : Int) +
                (off - (Reader.bufferedBytes a : Int))).toNat }
            a.buffers a.size)) := by
  refine ⟨?_, ?_, ?_⟩
  · intro a k hf hk
    have hseek : srcSeek a.src k Whence.start =
        (k, none, { a.src with pos := k.toNat }) := by
      rw [srcSeek, if_neg (by simp [hf])]
      simp [not_lt.mpr hk]
    simp only [Reader.Seek]
    rw [if_neg (by simp)]
    simp only [hseek]
    rfl
  · intro a0 src buffers size sizes hb
    have h := Reader.runReads_preserves (seekStep size) srcBytesP goodP
      (specP size) (a0.initState src buffers size)
      (Reader.inv_initState a0 src buffers size hb) (fun _ => trivial) sizes
    have hrem0 := Reader.remBytes_initState srcBytesP a0 src buffers size
    constructor
    · rw [h.1, hrem0]; rfl
    · intro herr
      have h1 := h.1
      rw [hrem0] at h1
      have hz : Reader.remBytes srcBytesP
          (Reader.runReads (seekStep size) (a0.initState src buffers size)
            sizes).2 = [] := by
        simp [Reader.remBytes, herr]
      rw [hz, List.append_nil] at h1
      rw [h1]; rfl
  · intro a off c hc hf hpos
    obtain ⟨aL, hL, hsrc, hcur, hcl', hbuf, hsize, hcloser, hcalls, herr⟩ :=
      Reader.seekLoop_spec (seekStep a.size)
        { a with closedR := true } off (a.ready.length + 3) c
        rfl (by simpa using hc) (by simp)
    have hsrcL : aL.src = a.src := hsrc
    have hseek : srcSeek aL.src (off - (Reader.bufferedBytes a : Int))
        Whence.current =
        ((a.src.pos : Int) + (off - (Reader.bufferedBytes a : Int)), none,
          { a.src with
            pos := ((a.src.pos : Int) +
              (off - (Reader.bufferedBytes a : Int))).toNat }) := by
      rw [hsrcL, srcSeek, if_neg (by simp [hf])]
      simp only
      rw [if_neg (by omega)]
    simp only [Reader.Seek, if_true]
    have hL' : Reader.seekLoop (seekStep a.size) (a.ready.length + 3)
        { a with closedR := true } off =
        (off - (Reader.bufferedBytes a : Int), aL) := hL
    rw [hL']
    simp only [hseek]
    simp only [Prod.mk.injEq]
    refine ⟨trivial, trivial, ?_⟩
    have hbuf' : aL.buffers = a.buffers := by simpa using hbuf
    have hsize' : aL.size = a.size := by simpa using hsize
    simp [Reader.initState, hcloser, hcalls]
    exact ⟨⟨hbuf', Or.inr (by rw [hsize'])⟩, hsize', hbuf'⟩

/-- Witness for the amended C5: a SeekStart on a fresh stream, reads from a
fresh pipeline at offset 1, and a SeekCurrent on a stream that has read one
byte of a prefetched two-byte chunk. -/
theorem c5_amended_reposition_witness :
    ((mkReader (⟨[9,8,7], 0, false⟩ : SeekSrc) 2 2 none).src.failSeek =
       false ∧
     (0 : Int) ≤ 1 ∧
     Reader.Seek (mkReader (⟨[9,8,7], 0, false⟩ : SeekSrc) 2 2 none) 1
         Whence.start =
       (1, none,
         (mkReader (⟨[9,8,7], 0, false⟩ : SeekSrc) 2 2 none).initState
           { (mkReader (⟨[9,8,7], 0, false⟩ : SeekSrc) 2 2 none).src with
             pos := (1 : Int).toNat }
           (mkReader (⟨[9,8,7], 0, false⟩ : SeekSrc) 2 2 none).buffers
           (mkReader (⟨[9,8,7], 0, false⟩ : SeekSrc) 2 2 none).size)) ∧
    (1 ≤ 2 ∧
     (Reader.runReads (seekStep 2)
        ((mkReader (⟨[], 0, false⟩ : SeekSrc) 1 1 none).initState
          (⟨[9,8,7], 1, false⟩ : SeekSrc) 2 2) [5,5]).1 ++
       Reader.remBytes srcBytesP
         (Reader.runReads (seekStep 2)
           ((mkReader (⟨[], 0, false⟩ : SeekSrc) 1 1 none).initState
             (⟨[9,8,7], 1, false⟩ : SeekSrc) 2 2) [5,5]).2 =
       (⟨[9,8,7], 1, false⟩ : SeekSrc).content.drop
         (⟨[9,8,7], 1, false⟩ : SeekSrc).pos) ∧
    ((Reader.Read (seekStep 2)
        (mkReader (⟨[1,2,3,4], 0, false⟩ : SeekSrc) 4 2 none) 1).2.2.cur =
       some ⟨none, [1,2], 1, 2⟩ ∧
     (Reader.Read (seekStep 2)
        (mkReader (⟨[1,2,3,4], 0, false⟩ : SeekSrc) 4 2 none)
        1).2.2.src.failSeek = false ∧
     (0 : Int) ≤
       ((Reader.Read (seekStep 2)
          (mkReader (⟨[1,2,3,4], 0, false⟩ : SeekSrc) 4 2 none)
          1).2.2.src.pos : Int) +
         (0 - (Reader.bufferedBytes
           (Reader.Read (seekStep 2)
             (mkReader (⟨[1,2,3,4], 0, false⟩ : SeekSrc) 4 2 none)
             1).2.2 : Int)) ∧
     Reader.Seek
        (Reader.Read (seekStep 2)
          (mkReader (⟨[1,2,3,4], 0, false⟩ : SeekSrc) 4 2 none) 1).2.2
        0 Whence.current =
       (((Reader.Read (seekStep 2)
            (mkReader (⟨[1,2,3,4], 0, false⟩ : SeekSrc) 4 2 none)
            1).2.2.src.pos : Int) +
          (0 - (Reader.bufferedBytes
            (Reader.Read (seekStep 2)
              (mkReader (⟨[1,2,3,4], 0, false⟩ : SeekSrc) 4 2 none)
              1).2.2 : Int)), none,
         (Reader.Read (seekStep 2)
           (mkReader (⟨[1,2,3,4], 0, false⟩ : SeekSrc) 4 2 none)
           1).2.2.initState
           { (Reader.Read (seekStep 2)
               (mkReader (⟨[1,2,3,4], 0, false⟩ : SeekSrc) 4 2 none)
               1).2.2.src with
             pos := (((Reader.Read (seekStep 2)
                 (mkReader (⟨[1,2,3,4], 0, false⟩ : SeekSrc) 4 2 none)
                 1).2.2.src.pos : Int) +
               (0 - (Reader.bufferedBytes
                 (Reader.Read (seekStep 2)
                   (mkReader (⟨[1,2,3,4], 0, false⟩ : SeekSrc) 4 2 none)
                   1).2.2 : Int))).toNat }
           (Reader.Read (seekStep 2)
             (mkReader (⟨[1,2,3,4], 0, false⟩ : SeekSrc) 4 2 none)
             1).2.2.buffers
           (Reader.Read (seekStep 2)
             (mkReader (⟨[1,2,3,4], 0, false⟩ : SeekSrc) 4 2 none)
             1).2.2.size)) :=
  ⟨⟨by decide, by decide,
    c5_amended_reposition.1 (mkReader (⟨[9,8,7], 0, false⟩ : SeekSrc) 2 2 none)
      1 (by decide) (by decide)⟩,
   ⟨by decide,
    (c5_amended_reposition.2.1 (mkReader (⟨[], 0, false⟩ : SeekSrc) 1 1 none)
      (⟨[9,8,7], 1, false⟩ : SeekSrc) 2 2 [5,5] (by decide)).1⟩,
   ⟨by decide, by decide, by decide,
    c5_amended_reposition.2.2
      (Reader.Read (seekStep 2)
        (mkReader (⟨[1,2,3,4], 0, false⟩ : SeekSrc) 4 2 none) 1).2.2
      0 ⟨none, [1,2], 1, 2⟩ (by decide) (by decide) (by decide)⟩⟩

/-! ## C6 -/

/-- C6 counterexample: a seekable stream whose underlying seeker fails.
The first scenario (no data buffered): `Seek` surfaces the seek error to
the caller, but the latched error stays nil, and the next `Read` fails
with the synthesized read-after-Close error — not the reposition error.
The second scenario (a chunk prefetched before the failed seek): the next
`Read` after the failed `Seek` returns the two stale buffered bytes with a
nil error.  Both refute the claim that the reposition error becomes the
latched error returned by all subsequent reads. -/
theorem c6_counterexample :
    ((Reader.Seek (mkReader (⟨[1,2,3], 0, true⟩ : SeekSrc) 4 2 none) 5
        Whence.start).2.1 = some (Err.other "seek error") ∧
     (Reader.Seek (mkReader (⟨[1,2,3], 0, true⟩ : SeekSrc) 4 2 none) 5
        Whence.start).2.2.err = none ∧
     (Reader.Read (seekStep 2)
        (Reader.Seek (mkReader (⟨[1,2,3], 0, true⟩ : SeekSrc) 4 2 none) 5
          Whence.start).2.2 10).2.1 = some Err.readAfterClose ∧
     Err.readAfterClose ≠ Err.other "seek error") ∧
    ((Reader.Seek
        (Reader.prefetch (seekStep 2)
          (mkReader (⟨[1,2,3], 0, true⟩ : SeekSrc) 4 2 none)) 5
        Whence.start).2.1 = some (Err.other "seek error") ∧
     (Reader.Read (seekStep 2)
        (Reader.Seek
          (Reader.prefetch (seekStep 2)
            (mkReader (⟨[1,2,3], 0, true⟩ : SeekSrc) 4 2 none)) 5
          Whence.start).2.2 10).1 = [1, 2] ∧
     (Reader.Read (seekStep 2)
        (Reader.Seek
          (Reader.prefetch (seekStep 2)
            (mkReader (⟨[1,2,3], 0, true⟩ : SeekSrc) 4 2 none)) 5
          Whence.start).2.2 10).2.1 = none) := by
  decide

/-- C6 amended: if the underlying source's `Seek` fails, the error is
returned to the caller of `Seek` and the pipeline is not reinitialized —
the stream is left quiesced (goroutine stopped, ready channel closed) with
all other fields untouched on the SeekStart path (likewise SeekCurrent
with no chunk held).  The reposition error is NOT latched: on those paths
the latched error is left as it was, and on the SeekCurrent path with a
held chunk the drain loop leaves the prior latched error or the
synthesized read-after-Close — never the reposition error itself. -/
theorem c6_amended_seek_failure (a : Reader SeekSrc) (off : Int)
    (hf : a.src.failSeek = true) :
    (Reader.Seek a off Whence.start =
      (0, some (Err.other "seek error"), { a with closedR := true })) ∧
    (a.cur = none →
      Reader.Seek a off Whence.current =
        (0, some (Err.other "seek error"), { a with closedR := true })) ∧
    (∀ c, a.cur = some c →
      (Reader.Seek a off Whence.current).2.1 =
        some (Err.other "seek error") ∧
      (Reader.Seek a off Whence.current).2.2.err =
        some (a.err.getD Err.readAfterClose) ∧
      (Reader.Seek a off Whence.current).2.2.src = a.src) := by
  have hseekfail : ∀ (s : SeekSrc) (o : Int) (w : Whence), s.failSeek = true →
      srcSeek s o w = (0, some (Err.other "seek error"), s) := by
    intro s o w hs
    cases w <;> simp [srcSeek, hs]
  refine ⟨?_, ?_, ?_⟩
  · simp only [Reader.Seek]
    rw [if_neg (by simp)]
    rw [hseekfail _ _ _ (by simpa using hf)]
  · intro hcur
    simp only [Reader.Seek, if_true]
    rw [show Reader.seekLoop (seekStep a.size) (a.ready.length + 3)
        { a with closedR := true } off =
        (off, { a with closedR := true }) from ?_]
    · rw [hseekfail _ _ _ (by simpa using hf)]
    · obtain ⟨f1, hfe⟩ : ∃ m, a.ready.length + 3 = m + 1 :=
        ⟨a.ready.length + 2, rfl⟩
      rw [hfe, Reader.seekLoop]
      rw [show ({ a with closedR := true } : Reader SeekSrc).cur = none from
        hcur]
  · intro c hc
    obtain ⟨aL, hL, hsrc, hcur, hcl', hbuf, hsize, hcloser, hcalls, herr⟩ :=
      Reader.seekLoop_spec (seekStep a.size)
        { a with closedR := true } off (a.ready.length + 3) c
        rfl (by simpa using hc) (by simp)
    simp only [Reader.Seek, if_true]
    rw [hL]
    rw [hseekfail _ _ _ (by rw [hsrc]; simpa using hf)]
    exact ⟨rfl, by simpa using herr, by simpa using hsrc⟩

/-- Witness for the amended C6: a failing seeker with nothing buffered
(SeekStart and SeekCurrent) and one with a half-consumed chunk. -/
theorem c6_amended_seek_failure_witness :
    ((mkReader (⟨[1,2,3], 0, true⟩ : SeekSrc) 2 2 none).src.failSeek =
       true ∧
     Reader.Seek (mkReader (⟨[1,2,3], 0, true⟩ : SeekSrc) 2 2 none) 5
         Whence.start =
       (0, some (Err.other "seek error"),
         { mkReader (⟨[1,2,3], 0, true⟩ : SeekSrc) 2 2 none with
           closedR := true }) ∧
     Reader.Seek (mkReader (⟨[1,2,3], 0, true⟩ : SeekSrc) 2 2 none) 5
         Whence.current =
       (0, some (Err.other "seek error"),
         { mkReader (⟨[1,2,3], 0, true⟩ : SeekSrc) 2 2 none with
           closedR := true })) ∧
    ((Reader.Read (seekStep 2)
        (mkReader (⟨[1,2,3,4], 0, true⟩ : SeekSrc) 4 2 none) 1).2.2.cur =
       some ⟨none, [1,2], 1, 2⟩ ∧
     (Reader.Seek
        (Reader.Read (seekStep 2)
          (mkReader (⟨[1,2,3,4], 0, true⟩ : SeekSrc) 4 2 none) 1).2.2
        7 Whence.current).2.1 = some (Err.other "seek error") ∧
     (Reader.Seek
        (Reader.Read (seekStep 2)
          (mkReader (⟨[1,2,3,4], 0, true⟩ : SeekSrc) 4 2 none) 1).2.2
        7 Whence.current).2.2.err =
       some ((Reader.Read (seekStep 2)
          (mkReader (⟨[1,2,3,4], 0, true⟩ : SeekSrc) 4 2 none)
          1).2.2.err.getD Err.readAfterClose)) :=
  ⟨⟨by decide,
    (c6_amended_seek_failure (mkReader (⟨[1,2,3], 0, true⟩ : SeekSrc) 2 2 none)
      5 (by decide)).1,
    (c6_amended_seek_failure (mkReader (⟨[1,2,3], 0, true⟩ : SeekSrc) 2 2 none)
      5 (by decide)).2.1 (by decide)⟩,
   ⟨by decide,
    ((c6_amended_seek_failure
      (Reader.Read (seekStep 2)
        (mkReader (⟨[1,2,3,4], 0, true⟩ : SeekSrc) 4 2 none) 1).2.2
      7 (by decide)).2.2 ⟨none, [1,2], 1, 2⟩ (by decide)).1,
    ((c6_amended_seek_failure
      (Reader.Read (seekStep 2)
        (mkReader (⟨[1,2,3,4], 0, true⟩ : SeekSrc) 4 2 none) 1).2.2
      7 (by decide)).2.2 ⟨none, [1,2], 1, 2⟩ (by decide)).2.1⟩⟩
